import Mathlib

/-!
Shallow embedding of the Move & Stock Reconciliation Engine of the
picking API (`services/picking-api/app/routers/moves.py`, with
request schemas from `services/picking-api/app/schemas.py`).

Quantities are pydantic `int` fields, embedded as `Int`; the schema
constraints (`qty > 0`, `qty_confirmed ≥ 0` when present) are carried as
explicit hypotheses where a theorem needs them.  Each HTTP endpoint is a
pure function from an explicit engine state (the move row, the stock
ledger, the audit table) to `Except MoveError` of the new state: an
`HTTPException` raised before `session.commit()` rolls the transaction
back, so an `.error` result carries no new state — the old state is
what remains visible.
-/

namespace Picking

/-- One row of the `stock` table as the router uses it:
`(item_code, location)`-keyed quantity. -/
structure Stock where
  item_code : String
  location : String
  qty : Int
  deriving Repr, DecidableEq

/-- A `models.MoveLine` row (fields as created in `confirm_move`). -/
structure MoveLine where
  item_code : String
  qty : Int
  qty_confirmed : Int
  location_from : String
  location_to : String
  deriving Repr, DecidableEq

/-- A `models.Move` row with the fields the router reads and writes. -/
structure Move where
  doc_type : String
  doc_number : String
  type : String
  status : String
  lines : List MoveLine
  deriving Repr, DecidableEq

/-- One line of the `confirmed` audit payload, with the stock
adjustments `(location, delta)` actually applied for that line. -/
structure AuditLine where
  item_code : String
  qty : Int
  qty_confirmed : Int
  location_from : String
  location_to : String
  adjustments : List (String × Int)
  deriving Repr, DecidableEq

/-- A `models.Audit` row: entity, action, structured payload, actor. -/
structure AuditRec where
  entity : String
  action : String
  info : List (String × String)
  lines : List AuditLine
  user_id : String
  deriving Repr, DecidableEq

/-- The state a call can read and write: the move row under operation,
the stock ledger, and the append-only audit table. -/
structure EngineState where
  move : Move
  ledger : List Stock
  audits : List AuditRec
  deriving Repr, DecidableEq

/-- `schemas.MoveCreateRequest`: only `doc_type` (regex `^(PO|SO|TR|RT)$`)
and `doc_number` (length 1..64).  The schema has no `lines` field; an
extra `lines` key in the request JSON is ignored by the model. -/
structure MoveCreateRequest where
  doc_type : String
  doc_number : String
  deriving Repr, DecidableEq

/-- `schemas.MoveLineInput`: one confirmation entry.  `location_from`
and `location_to` default to `"MAIN"` when omitted. -/
structure MoveLineInput where
  item_code : String
  qty : Int
  qty_confirmed : Option Int
  location_from : String
  location_to : String
  deriving Repr, DecidableEq

/-- Pydantic parsing of a `MoveLineInput` body: an omitted
`location_from` / `location_to` takes the schema default `"MAIN"`. -/
def mkMoveLineInput (item_code : String) (qty : Int) (qty_confirmed : Option Int)
    (location_from location_to : Option String) : MoveLineInput :=
  ⟨item_code, qty, qty_confirmed, location_from.getD "MAIN", location_to.getD "MAIN"⟩

/-- The schema bounds pydantic enforces on a `MoveLineInput`:
`qty > 0` (`Field(gt=0)`) and, when `qty_confirmed` is given,
`qty_confirmed ≥ 0` (`Field(ge=0)`). -/
def ValidLineInput (lp : MoveLineInput) : Prop :=
  0 < lp.qty ∧ ∀ c, lp.qty_confirmed = some c → 0 ≤ c

/-- The errors `confirm_move` / `create_move` raise (each an
`HTTPException` in the source; the constructor keeps the data the
Spanish detail string interpolates). -/
inductive MoveError where
  | invalidDocType
  | moveNotFound
  | alreadyApproved
  | emptyConfirmation
  | linesAlreadyRegistered
  | productNotFound (item_code : String)
  | quantityExceedsRequested
  | sameLocationTransfer
  | insufficientStockAt (item_code location : String)
  | insufficientStock (item_code : String)
  deriving Repr, DecidableEq

/-- `MOVE_TYPE_MAPPING`: doc_type → (move type, direction). -/
def MOVE_TYPE_MAPPING : List (String × String × Int) :=
  [("PO", ("inbound", 1)),
   ("SO", ("outbound", -1)),
   ("TR", ("transfer", -1)),
   ("RT", ("return", 1))]

/-- `_resolve_move_type`: dictionary lookup, `none` for the
defensive `KeyError` branch. -/
def resolve_move_type (doc_type : String) : Option (String × Int) :=
  MOVE_TYPE_MAPPING.lookup doc_type

/-- Effective confirmed amount of one entry: the explicit
`qty_confirmed` when present, else the requested `qty`. -/
def effAmount (lp : MoveLineInput) : Int :=
  lp.qty_confirmed.getD lp.qty

/-- The `SELECT ... WHERE item_code = _ AND location = _` the router
issues against the stock table (first matching row). -/
def findStock (led : List Stock) (item loc : String) : Option Stock :=
  led.find? fun s => decide (s.item_code = item ∧ s.location = loc)

/-- The quantity the router sees at a key, `0` when the row is absent
(only used where the router itself creates the zero row). -/
def stockQtyD (led : List Stock) (item loc : String) : Int :=
  match findStock led item loc with
  | some s => s.qty
  | none => 0

/-- Writing quantity `q` at a key: mutate the first existing row, or
append a fresh row (the router adds a new `models.Stock` otherwise). -/
def setStockQty (led : List Stock) (item loc : String) (q : Int) : List Stock :=
  match led with
  | [] => [⟨item, loc, q⟩]
  | s :: rest =>
    if s.item_code = item ∧ s.location = loc then ⟨item, loc, q⟩ :: rest
    else s :: setStockQty rest item loc q

/-- System-wide stock of one item: sum over all its ledger rows. -/
def totalStock : List Stock → String → Int
  | [], _ => 0
  | s :: rest, item => (if s.item_code = item then s.qty else 0) + totalStock rest item

/-- The TR branch of `confirm_move`: reject same-location transfers,
require an existing source row covering the amount, subtract at the
source, then add at the (lazily created) destination. -/
def applyStockTR (led : List Stock) (lp : MoveLineInput) (amt : Int) :
    Except MoveError (List Stock × List (String × Int)) :=
  if lp.location_from = lp.location_to then
    .error .sameLocationTransfer
  else
    match findStock led lp.item_code lp.location_from with
    | none => .error (.insufficientStockAt lp.item_code lp.location_from)
    | some src =>
      if src.qty < amt then .error (.insufficientStockAt lp.item_code lp.location_from)
      else
        let led1 := setStockQty led lp.item_code lp.location_from (src.qty - amt)
        let led2 := setStockQty led1 lp.item_code lp.location_to
          (stockQtyD led1 lp.item_code lp.location_to + amt)
        .ok (led2, [(lp.location_from, -amt), (lp.location_to, amt)])

/-- The non-TR branch: target is `location_to` for positive direction
(PO/RT, lazily created, add) and `location_from` for negative
direction (SO, must exist and cover the amount, subtract). -/
def applyStockDir (direction : Int) (led : List Stock) (lp : MoveLineInput) (amt : Int) :
    Except MoveError (List Stock × List (String × Int)) :=
  if 0 < direction then
    .ok (setStockQty led lp.item_code lp.location_to
          (stockQtyD led lp.item_code lp.location_to + amt),
         [(lp.location_to, amt)])
  else
    match findStock led lp.item_code lp.location_from with
    | none => .error (.insufficientStock lp.item_code)
    | some src =>
      if src.qty < amt then .error (.insufficientStock lp.item_code)
      else
        .ok (setStockQty led lp.item_code lp.location_from (src.qty - amt),
             [(lp.location_from, -amt)])

/-- Stock effect of one confirmation entry, dispatched on doc_type as
in the source (`TR` has its own branch, the rest go by direction). -/
def applyStock (doc_type : String) (direction : Int) (led : List Stock)
    (lp : MoveLineInput) (amt : Int) :
    Except MoveError (List Stock × List (String × Int)) :=
  if doc_type = "TR" then applyStockTR led lp amt
  else applyStockDir direction led lp amt

/-- The `models.MoveLine` row `confirm_move` adds for one entry. -/
def mkNewLine (lp : MoveLineInput) : MoveLine :=
  ⟨lp.item_code, lp.qty, effAmount lp, lp.location_from, lp.location_to⟩

/-- The accumulator of the `for line_payload in payload.lines` loop:
ledger so far, move lines added so far, the `confirmed_all` flag, and
the audit payload lines. -/
structure ConfirmAcc where
  ledger : List Stock
  newLines : List MoveLine
  confirmedAll : Bool
  auditLines : List AuditLine
  deriving Repr, DecidableEq

/-- One iteration of the confirmation loop: product existence check,
effective amount, `qty_confirmed > qty` rejection, `confirmed_all`
update, stock effect, new line row and audit line. -/
def processLine (products : List String) (doc_type : String) (direction : Int)
    (acc : ConfirmAcc) (lp : MoveLineInput) : Except MoveError ConfirmAcc :=
  if lp.item_code ∈ products then
    if lp.qty < effAmount lp then .error .quantityExceedsRequested
    else
      match applyStock doc_type direction acc.ledger lp (effAmount lp) with
      | .error e => .error e
      | .ok (led, adjs) =>
        .ok ⟨led,
             acc.newLines ++ [mkNewLine lp],
             (if effAmount lp < lp.qty then false else acc.confirmedAll),
             acc.auditLines ++
               [⟨lp.item_code, lp.qty, effAmount lp, lp.location_from, lp.location_to, adjs⟩]⟩
  else .error (.productNotFound lp.item_code)

/-- `POST /moves/{id}/confirm`.  `products` is the catalog the
`_ensure_product` collaborator consults; `actor` the authenticated
user id.  Mirrors the source order: already-approved check, move-type
resolution, empty-payload check, lines-already-registered check, the
per-entry loop, then status recompute and the single audit append.
An `.error` result is a rolled-back transaction: no state survives. -/
def confirm_move (products : List String) (actor : String) (st : EngineState)
    (payload : List MoveLineInput) : Except MoveError EngineState :=
  if st.move.status = "approved" then .error .alreadyApproved
  else
    match resolve_move_type st.move.doc_type with
    | none => .error .invalidDocType
    | some (move_type, direction) =>
      if payload = [] then .error .emptyConfirmation
      else if st.move.lines ≠ [] then .error .linesAlreadyRegistered
      else
        match payload.foldlM (processLine products st.move.doc_type direction)
            ⟨st.ledger, [], true, []⟩ with
        | .error e => .error e
        | .ok acc =>
          .ok ⟨{ st.move with
                 type := move_type
                 status := if acc.confirmedAll then "approved" else "pending"
                 lines := acc.newLines },
               acc.ledger,
               st.audits ++
                 [⟨"move", "confirmed", [("user_id", actor)], acc.auditLines, actor⟩]⟩

/-- `POST /moves/`.  The schema regex restricts `doc_type`; the handler
resolves the move type and inserts a move with status `"pending"` and
no lines (the request schema carries no lines), plus one audit row. -/
def create_move (payload : MoveCreateRequest) (actor : String)
    (ledger : List Stock) (audits : List AuditRec) : Except MoveError EngineState :=
  if payload.doc_type = "PO" ∨ payload.doc_type = "SO" ∨
      payload.doc_type = "TR" ∨ payload.doc_type = "RT" then
    match resolve_move_type payload.doc_type with
    | none => .error .invalidDocType
    | some (move_type, _) =>
      .ok ⟨⟨payload.doc_type, payload.doc_number, move_type, "pending", []⟩,
           ledger,
           audits ++
             [⟨"move", "created",
               [("doc_type", payload.doc_type), ("doc_number", payload.doc_number),
                ("user_id", actor)], [], actor⟩]⟩
  else .error .invalidDocType

/-- The status function §3 of the spec prescribes (spec side of the
refinement, for comparison only): approved iff non-empty and fully
confirmed, else pending once any confirmation has been applied, else
draft. -/
def specStatus (anyConfirmationApplied : Bool) (lines : List MoveLine) : String :=
  if lines ≠ [] ∧ ∀ l ∈ lines, l.qty_confirmed = l.qty then "approved"
  else if anyConfirmationApplied then "pending" else "draft"

/-! ### Ledger lemmas -/

lemma findStock_cons (s : Stock) (rest : List Stock) (i l : String) :
    findStock (s :: rest) i l =
      if s.item_code = i ∧ s.location = l then some s else findStock rest i l := by
  by_cases h : s.item_code = i ∧ s.location = l
  · rw [if_pos h]
    exact List.find?_cons_of_pos _ (by simpa using h)
  · rw [if_neg h]
    exact List.find?_cons_of_neg _ (by simpa using h)

lemma findStock_mem {led : List Stock} {i l : String} {s : Stock}
    (h : findStock led i l = some s) : s ∈ led :=
  List.mem_of_find?_eq_some h

lemma findStock_eq {led : List Stock} {i l : String} {s : Stock}
    (h : findStock led i l = some s) : s.item_code = i ∧ s.location = l := by
  have := List.find?_some h
  simpa using this

lemma stockQtyD_nonneg {led : List Stock} (hled : ∀ s ∈ led, 0 ≤ s.qty)
    (i l : String) : 0 ≤ stockQtyD led i l := by
  unfold stockQtyD
  cases hf : findStock led i l with
  | none => simp
  | some s => exact hled s (findStock_mem hf)

lemma stockQtyD_of_findStock {led : List Stock} {i l : String} {s : Stock}
    (h : findStock led i l = some s) : stockQtyD led i l = s.qty := by
  unfold stockQtyD
  rw [h]

lemma setStockQty_nonneg {led : List Stock} {q : Int}
    (hled : ∀ s ∈ led, 0 ≤ s.qty) (hq : 0 ≤ q) (i l : String) :
    ∀ s ∈ setStockQty led i l q, 0 ≤ s.qty := by
  induction led with
  | nil =>
    intro s hs
    simp only [setStockQty, List.mem_singleton] at hs
    simp [hs, hq]
  | cons t rest ih =>
    intro s hs
    have hrest : ∀ u ∈ rest, 0 ≤ u.qty := fun u hu => hled u (List.mem_cons_of_mem _ hu)
    simp only [setStockQty] at hs
    split at hs
    · rcases List.mem_cons.mp hs with h | h
      · simp [h, hq]
      · exact hrest s h
    · rcases List.mem_cons.mp hs with h | h
      · exact hled s (h ▸ List.mem_cons_self _ _)
      · exact ih hrest s h

lemma totalStock_setStockQty (led : List Stock) (i l : String) (q : Int) (it : String) :
    totalStock (setStockQty led i l q) it =
      totalStock led it + (if i = it then q - stockQtyD led i l else 0) := by
  induction led with
  | nil =>
    simp only [setStockQty, totalStock, stockQtyD, findStock, List.find?]
    by_cases h : i = it <;> simp [h]
  | cons s rest ih =>
    simp only [setStockQty]
    by_cases h : s.item_code = i ∧ s.location = l
    · rw [if_pos h]
      have hq : stockQtyD (s :: rest) i l = s.qty := by
        unfold stockQtyD
        rw [findStock_cons, if_pos h]
      rw [hq]
      simp only [totalStock]
      by_cases hit : i = it
      · rw [← hit, ← h.1]
        simp
        ring
      · simp [hit, h.1]
    · rw [if_neg h]
      have hq : stockQtyD (s :: rest) i l = stockQtyD rest i l := by
        unfold stockQtyD
        rw [findStock_cons, if_neg h]
      rw [hq]
      simp only [totalStock, ih]
      ring

lemma stockQtyD_setStockQty_self (led : List Stock) (i l : String) (q : Int) :
    stockQtyD (setStockQty led i l q) i l = q := by
  induction led with
  | nil =>
    simp [setStockQty, stockQtyD, findStock, List.find?]
  | cons s rest ih =>
    simp only [setStockQty]
    by_cases h : s.item_code = i ∧ s.location = l
    · rw [if_pos h]
      unfold stockQtyD
      rw [findStock_cons, if_pos ⟨rfl, rfl⟩]
    · rw [if_neg h]
      unfold stockQtyD
      rw [findStock_cons, if_neg h]
      exact ih

/-! ### Stock-effect lemmas -/

lemma applyStockTR_ok {led led' : List Stock} {lp : MoveLineInput} {amt : Int}
    {adjs : List (String × Int)}
    (h : applyStockTR led lp amt = .ok (led', adjs)) :
    lp.location_from ≠ lp.location_to ∧
    ∃ src, findStock led lp.item_code lp.location_from = some src ∧
      amt ≤ src.qty ∧
      led' = setStockQty
        (setStockQty led lp.item_code lp.location_from (src.qty - amt))
        lp.item_code lp.location_to
        (stockQtyD (setStockQty led lp.item_code lp.location_from (src.qty - amt))
          lp.item_code lp.location_to + amt) := by
  unfold applyStockTR at h
  split at h
  · exact absurd h (by simp)
  next hne =>
    split at h
    · exact absurd h (by simp)
    next src hf =>
      split at h
      · exact absurd h (by simp)
      next hlt =>
        simp only [Except.ok.injEq, Prod.mk.injEq] at h
        exact ⟨hne, src, hf, not_lt.mp hlt, h.1.symm⟩

lemma applyStockDir_ok_pos {direction : Int} {led led' : List Stock}
    {lp : MoveLineInput} {amt : Int} {adjs : List (String × Int)}
    (hdir : 0 < direction)
    (h : applyStockDir direction led lp amt = .ok (led', adjs)) :
    led' = setStockQty led lp.item_code lp.location_to
      (stockQtyD led lp.item_code lp.location_to + amt) := by
  unfold applyStockDir at h
  rw [if_pos hdir] at h
  simp only [Except.ok.injEq, Prod.mk.injEq] at h
  exact h.1.symm

lemma applyStockDir_ok_neg {direction : Int} {led led' : List Stock}
    {lp : MoveLineInput} {amt : Int} {adjs : List (String × Int)}
    (hdir : ¬ 0 < direction)
    (h : applyStockDir direction led lp amt = .ok (led', adjs)) :
    ∃ src, findStock led lp.item_code lp.location_from = some src ∧
      amt ≤ src.qty ∧
      led' = setStockQty led lp.item_code lp.location_from (src.qty - amt) := by
  unfold applyStockDir at h
  rw [if_neg hdir] at h
  split at h
  · exact absurd h (by simp)
  next src hf =>
    split at h
    · exact absurd h (by simp)
    next hlt =>
      simp only [Except.ok.injEq, Prod.mk.injEq] at h
      exact ⟨src, hf, not_lt.mp hlt, h.1.symm⟩

/-- Per-entry change in an item's system-wide stock, read off the
router's direction table. -/
def stepEffect (doc_type : String) (direction : Int) (item : String)
    (lp : MoveLineInput) : Int :=
  if lp.item_code = item then
    (if doc_type = "TR" then 0 else if 0 < direction then effAmount lp else -effAmount lp)
  else 0

lemma applyStock_ok_total {doc_type : String} {direction : Int}
    {led led' : List Stock} {lp : MoveLineInput} {amt : Int}
    {adjs : List (String × Int)} (it : String)
    (h : applyStock doc_type direction led lp amt = .ok (led', adjs)) :
    totalStock led' it = totalStock led it +
      (if lp.item_code = it then
        (if doc_type = "TR" then 0 else if 0 < direction then amt else -amt)
       else 0) := by
  unfold applyStock at h
  split at h
  case isTrue hTR =>
    obtain ⟨hne, src, hf, hle, hled'⟩ := applyStockTR_ok h
    subst hled'
    rw [totalStock_setStockQty, totalStock_setStockQty,
        stockQtyD_of_findStock hf]
    by_cases hit : lp.item_code = it <;> simp [hit, hTR]
  case isFalse hTR =>
    by_cases hdir : 0 < direction
    · have hled' := applyStockDir_ok_pos hdir h
      subst hled'
      rw [totalStock_setStockQty]
      by_cases hit : lp.item_code = it <;> simp [hit, hTR, hdir]
    · obtain ⟨src, hf, hle, hled'⟩ := applyStockDir_ok_neg hdir h
      subst hled'
      rw [totalStock_setStockQty, stockQtyD_of_findStock hf]
      by_cases hit : lp.item_code = it <;> simp [hit, hTR, hdir]

lemma applyStock_ok_nonneg {doc_type : String} {direction : Int}
    {led led' : List Stock} {lp : MoveLineInput} {amt : Int}
    {adjs : List (String × Int)}
    (hled : ∀ s ∈ led, 0 ≤ s.qty) (hamt : 0 ≤ amt)
    (h : applyStock doc_type direction led lp amt = .ok (led', adjs)) :
    ∀ s ∈ led', 0 ≤ s.qty := by
  unfold applyStock at h
  split at h
  case isTrue hTR =>
    obtain ⟨hne, src, hf, hle, hled'⟩ := applyStockTR_ok h
    subst hled'
    have h1 : ∀ s ∈ setStockQty led lp.item_code lp.location_from (src.qty - amt), 0 ≤ s.qty :=
      setStockQty_nonneg hled (by omega) _ _
    exact setStockQty_nonneg h1
      (add_nonneg (stockQtyD_nonneg h1 _ _) hamt) _ _
  case isFalse hTR =>
    by_cases hdir : 0 < direction
    · have hled' := applyStockDir_ok_pos hdir h
      subst hled'
      exact setStockQty_nonneg hled
        (add_nonneg (stockQtyD_nonneg hled _ _) hamt) _ _
    · obtain ⟨src, hf, hle, hled'⟩ := applyStockDir_ok_neg hdir h
      subst hled'
      exact setStockQty_nonneg hled (by omega) _ _

/-! ### Confirmation-loop lemmas -/

lemma processLine_ok {products : List String} {doc_type : String} {direction : Int}
    {acc acc' : ConfirmAcc} {lp : MoveLineInput}
    (h : processLine products doc_type direction acc lp = .ok acc') :
    lp.item_code ∈ products ∧ effAmount lp ≤ lp.qty ∧
    ∃ adjs, applyStock doc_type direction acc.ledger lp (effAmount lp) = .ok (acc'.ledger, adjs) ∧
      acc'.newLines = acc.newLines ++ [mkNewLine lp] ∧
      acc'.confirmedAll = (if effAmount lp < lp.qty then false else acc.confirmedAll) := by
  unfold processLine at h
  split at h
  case isTrue hmem =>
    split at h
    · exact absurd h (by simp)
    next hq =>
      split at h
      · exact absurd h (by simp)
      next led adjs happ =>
        simp only [Except.ok.injEq] at h
        subst h
        exact ⟨hmem, not_lt.mp hq, adjs, happ, rfl, rfl⟩
  case isFalse => exact absurd h (by simp)

lemma foldlM_processLine_ok {products : List String} {doc_type : String}
    {direction : Int} {p : List MoveLineInput} {acc acc' : ConfirmAcc}
    (h : p.foldlM (processLine products doc_type direction) acc = .ok acc') :
    (acc'.newLines = acc.newLines ++ p.map mkNewLine) ∧
    (acc'.confirmedAll = true ↔
      (acc.confirmedAll = true ∧ ∀ lp ∈ p, effAmount lp = lp.qty)) ∧
    (∀ it, totalStock acc'.ledger it =
      totalStock acc.ledger it + (p.map (stepEffect doc_type direction it)).sum) ∧
    ((∀ lp ∈ p, 0 ≤ effAmount lp) → (∀ s ∈ acc.ledger, 0 ≤ s.qty) →
      ∀ s ∈ acc'.ledger, 0 ≤ s.qty) := by
  induction p generalizing acc with
  | nil =>
    simp only [List.foldlM_nil] at h
    have hacc : acc = acc' := by
      simpa [pure, Except.pure] using h
    subst hacc
    refine ⟨by simp, by simp, fun it => by simp, fun _ hled => hled⟩
  | cons lp rest ih =>
    rw [List.foldlM_cons] at h
    cases hstep : processLine products doc_type direction acc lp with
    | error e =>
      rw [hstep] at h
      exact absurd h (by simp [Bind.bind, Except.bind])
    | ok acc1 =>
      rw [hstep] at h
      have hrest : rest.foldlM (processLine products doc_type direction) acc1 = .ok acc' := h
      obtain ⟨hmem, hle, adjs, happ, hnew, hconf⟩ := processLine_ok hstep
      obtain ⟨ih_new, ih_conf, ih_tot, ih_nonneg⟩ := ih hrest
      refine ⟨?_, ?_, ?_, ?_⟩
      · rw [ih_new, hnew]
        simp
      · rw [ih_conf, hconf]
        by_cases hltq : effAmount lp < lp.qty
        · rw [if_pos hltq]
          constructor
          · rintro ⟨hfalse, -⟩
            exact absurd hfalse (by simp)
          · rintro ⟨-, hall⟩
            exact absurd (hall lp (List.mem_cons_self _ _)) (by omega)
        · have heq : effAmount lp = lp.qty := le_antisymm hle (not_lt.mp hltq)
          rw [if_neg hltq]
          constructor
          · rintro ⟨hc, hall⟩
            refine ⟨hc, ?_⟩
            intro x hx
            rcases List.mem_cons.mp hx with hx | hx
            · exact hx ▸ heq
            · exact hall x hx
          · rintro ⟨hc, hall⟩
            exact ⟨hc, fun x hx => hall x (List.mem_cons_of_mem _ hx)⟩
      · intro it
        have hstepTot : totalStock acc1.ledger it =
            totalStock acc.ledger it + stepEffect doc_type direction it lp := by
          have := applyStock_ok_total it happ
          rw [this]
          rfl
        rw [ih_tot it, hstepTot]
        simp only [List.map_cons, List.sum_cons]
        ring
      · intro hval hled
        have h0 : 0 ≤ effAmount lp := hval lp (List.mem_cons_self _ _)
        have h1 : ∀ s ∈ acc1.ledger, 0 ≤ s.qty := applyStock_ok_nonneg hled h0 happ
        exact ih_nonneg (fun x hx => hval x (List.mem_cons_of_mem _ hx)) h1

lemma resolve_move_type_eq (d : String) :
    resolve_move_type d =
      if d = "PO" then some ("inbound", 1)
      else if d = "SO" then some ("outbound", -1)
      else if d = "TR" then some ("transfer", -1)
      else if d = "RT" then some ("return", 1)
      else none := by
  by_cases h1 : d = "PO" <;> by_cases h2 : d = "SO" <;>
    by_cases h3 : d = "TR" <;> by_cases h4 : d = "RT" <;>
    simp_all [resolve_move_type, MOVE_TYPE_MAPPING, List.lookup, beq_eq_decide]

lemma resolve_move_type_cases {d mty : String} {dir : Int}
    (h : resolve_move_type d = some (mty, dir)) :
    (d = "PO" ∧ mty = "inbound" ∧ dir = 1) ∨
    (d = "SO" ∧ mty = "outbound" ∧ dir = -1) ∨
    (d = "TR" ∧ mty = "transfer" ∧ dir = -1) ∨
    (d = "RT" ∧ mty = "return" ∧ dir = 1) := by
  rw [resolve_move_type_eq] at h
  by_cases h1 : d = "PO"
  · rw [if_pos h1] at h
    simp only [Option.some.injEq, Prod.mk.injEq] at h
    exact Or.inl ⟨h1, h.1.symm, h.2.symm⟩
  · rw [if_neg h1] at h
    by_cases h2 : d = "SO"
    · rw [if_pos h2] at h
      simp only [Option.some.injEq, Prod.mk.injEq] at h
      exact Or.inr (Or.inl ⟨h2, h.1.symm, h.2.symm⟩)
    · rw [if_neg h2] at h
      by_cases h3 : d = "TR"
      · rw [if_pos h3] at h
        simp only [Option.some.injEq, Prod.mk.injEq] at h
        exact Or.inr (Or.inr (Or.inl ⟨h3, h.1.symm, h.2.symm⟩))
      · rw [if_neg h3] at h
        by_cases h4 : d = "RT"
        · rw [if_pos h4] at h
          simp only [Option.some.injEq, Prod.mk.injEq] at h
          exact Or.inr (Or.inr (Or.inr ⟨h4, h.1.symm, h.2.symm⟩))
        · rw [if_neg h4] at h
          exact absurd h (by simp)

lemma confirm_move_ok {products : List String} {actor : String}
    {st st' : EngineState} {p : List MoveLineInput}
    (h : confirm_move products actor st p = .ok st') :
    st.move.status ≠ "approved" ∧ p ≠ [] ∧ st.move.lines = [] ∧
    ∃ move_type direction acc,
      resolve_move_type st.move.doc_type = some (move_type, direction) ∧
      p.foldlM (processLine products st.move.doc_type direction)
        ⟨st.ledger, [], true, []⟩ = .ok acc ∧
      st' = ⟨{ st.move with
               type := move_type
               status := if acc.confirmedAll then "approved" else "pending"
               lines := acc.newLines },
             acc.ledger,
             st.audits ++
               [⟨"move", "confirmed", [("user_id", actor)], acc.auditLines, actor⟩]⟩ := by
  unfold confirm_move at h
  split at h
  · exact absurd h (by simp)
  next hst =>
    split at h
    · exact absurd h (by simp)
    next move_type direction hres =>
      split at h
      · exact absurd h (by simp)
      next hp =>
        split at h
        · exact absurd h (by simp)
        next hlines =>
          split at h
          · exact absurd h (by simp)
          next acc hfold =>
            simp only [Except.ok.injEq] at h
            exact ⟨hst, hp, not_ne_iff.mp hlines, move_type, direction, acc,
              hres, hfold, h.symm⟩

lemma validLineInput_effAmount_nonneg {lp : MoveLineInput} (h : ValidLineInput lp) :
    0 ≤ effAmount lp := by
  obtain ⟨hq, hc⟩ := h
  unfold effAmount
  cases hcc : lp.qty_confirmed with
  | none => simpa using le_of_lt hq
  | some c => simpa using hc c hcc

/-- Running `confirm_move` on a single entry of a positive-direction
(non-TR) move: the full success state, computed symbolically. -/
lemma confirm_move_singleton_pos (products : List String) (actor : String)
    (st : EngineState) (lp : MoveLineInput) (mty : String) (dir : Int)
    (hst : st.move.status ≠ "approved")
    (hres : resolve_move_type st.move.doc_type = some (mty, dir))
    (hTR : st.move.doc_type ≠ "TR")
    (hdir : 0 < dir)
    (hlines : st.move.lines = [])
    (hprod : lp.item_code ∈ products)
    (hle : effAmount lp ≤ lp.qty) :
    confirm_move products actor st [lp] =
      .ok ⟨{ st.move with
             type := mty
             status := if effAmount lp < lp.qty then "pending" else "approved"
             lines := [mkNewLine lp] },
           setStockQty st.ledger lp.item_code lp.location_to
             (stockQtyD st.ledger lp.item_code lp.location_to + effAmount lp),
           st.audits ++ [⟨"move", "confirmed", [("user_id", actor)],
             [⟨lp.item_code, lp.qty, effAmount lp, lp.location_from, lp.location_to,
               [(lp.location_to, effAmount lp)]⟩], actor⟩]⟩ := by
  have hstep : processLine products st.move.doc_type dir ⟨st.ledger, [], true, []⟩ lp =
      .ok ⟨setStockQty st.ledger lp.item_code lp.location_to
             (stockQtyD st.ledger lp.item_code lp.location_to + effAmount lp),
           [mkNewLine lp],
           (if effAmount lp < lp.qty then false else true),
           [⟨lp.item_code, lp.qty, effAmount lp, lp.location_from, lp.location_to,
             [(lp.location_to, effAmount lp)]⟩]⟩ := by
    unfold processLine
    rw [if_pos hprod, if_neg (not_lt.mpr hle)]
    unfold applyStock
    rw [if_neg hTR]
    unfold applyStockDir
    rw [if_pos hdir]
    rfl
  unfold confirm_move
  rw [if_neg hst, hres]
  simp only []
  rw [if_neg (by simp : ¬ ([lp] : List MoveLineInput) = [])]
  rw [hlines]
  rw [if_neg (by simp : ¬ ([] : List MoveLine) ≠ [])]
  rw [List.foldlM_cons, hstep]
  show Except.ok _ = _
  by_cases hlt : effAmount lp < lp.qty <;> simp [hlt]

/-- Running `confirm_move` on a single entry of a negative-direction
(non-TR, i.e. SO) move whose source row covers the amount: the full
success state, computed symbolically. -/
lemma confirm_move_singleton_neg (products : List String) (actor : String)
    (st : EngineState) (lp : MoveLineInput) (mty : String) (dir : Int) (src : Stock)
    (hst : st.move.status ≠ "approved")
    (hres : resolve_move_type st.move.doc_type = some (mty, dir))
    (hTR : st.move.doc_type ≠ "TR")
    (hdir : ¬ 0 < dir)
    (hlines : st.move.lines = [])
    (hprod : lp.item_code ∈ products)
    (hle : effAmount lp ≤ lp.qty)
    (hf : findStock st.ledger lp.item_code lp.location_from = some src)
    (hcov : effAmount lp ≤ src.qty) :
    confirm_move products actor st [lp] =
      .ok ⟨{ st.move with
             type := mty
             status := if effAmount lp < lp.qty then "pending" else "approved"
             lines := [mkNewLine lp] },
           setStockQty st.ledger lp.item_code lp.location_from (src.qty - effAmount lp),
           st.audits ++ [⟨"move", "confirmed", [("user_id", actor)],
             [⟨lp.item_code, lp.qty, effAmount lp, lp.location_from, lp.location_to,
               [(lp.location_from, -effAmount lp)]⟩], actor⟩]⟩ := by
  have hstep : processLine products st.move.doc_type dir ⟨st.ledger, [], true, []⟩ lp =
      .ok ⟨setStockQty st.ledger lp.item_code lp.location_from (src.qty - effAmount lp),
           [mkNewLine lp],
           (if effAmount lp < lp.qty then false else true),
           [⟨lp.item_code, lp.qty, effAmount lp, lp.location_from, lp.location_to,
             [(lp.location_from, -effAmount lp)]⟩]⟩ := by
    unfold processLine
    rw [if_pos hprod, if_neg (not_lt.mpr hle)]
    have happ : applyStock st.move.doc_type dir st.ledger lp (effAmount lp) =
        .ok (setStockQty st.ledger lp.item_code lp.location_from (src.qty - effAmount lp),
             [(lp.location_from, -effAmount lp)]) := by
      unfold applyStock
      rw [if_neg hTR]
      unfold applyStockDir
      rw [if_neg hdir, hf]
      simp only []
      rw [if_neg (not_lt.mpr hcov)]
    rw [happ]
    rfl
  unfold confirm_move
  rw [if_neg hst, hres]
  simp only []
  rw [if_neg (by simp : ¬ ([lp] : List MoveLineInput) = [])]
  rw [hlines]
  rw [if_neg (by simp : ¬ ([] : List MoveLine) ≠ [])]
  rw [List.foldlM_cons, hstep]
  show Except.ok _ = _
  by_cases hlt : effAmount lp < lp.qty <;> simp [hlt]

/-! ### Concrete scenarios -/

/-- A one-product catalog for the examples. -/
def exProducts : List String := ["A"]

/-- The PO move exactly as `create_move` inserts it. -/
def exMovePO : Move := ⟨"PO", "PO-1", "inbound", "pending", []⟩

/-- Fresh engine state around `exMovePO`, empty ledger. -/
def exState0 : EngineState := ⟨exMovePO, [], []⟩

/-- A confirmation entry for item `A`, requested qty 10, into `DOCK`. -/
def lineA (c : Option Int) : MoveLineInput := ⟨"A", 10, c, "MAIN", "DOCK"⟩

/-- State after confirming 4 of 10 on `exState0`. -/
def exState1 : EngineState :=
  ⟨⟨"PO", "PO-1", "inbound", "pending", [⟨"A", 10, 4, "MAIN", "DOCK"⟩]⟩,
   [⟨"A", "DOCK", 4⟩],
   [⟨"move", "confirmed", [("user_id", "u")],
     [⟨"A", 10, 4, "MAIN", "DOCK", [("DOCK", 4)]⟩], "u"⟩]⟩

/-- State `create_move ⟨"PO", "PO-1"⟩ "u" [] []` produces. -/
def exStateCreated : EngineState :=
  ⟨⟨"PO", "PO-1", "inbound", "pending", []⟩, [],
   [⟨"move", "created",
     [("doc_type", "PO"), ("doc_number", "PO-1"), ("user_id", "u")], [], "u"⟩]⟩

/-- The TR move as `create_move` inserts it. -/
def exMoveTR : Move := ⟨"TR", "TR-1", "transfer", "pending", []⟩

/-- TR state with 3 units at the source `A1` (scenario (e) of the spec). -/
def exStateTR3 : EngineState := ⟨exMoveTR, [⟨"A", "A1", 3⟩], []⟩

/-- TR state with 5 units at the source `A1`. -/
def exStateTR5 : EngineState := ⟨exMoveTR, [⟨"A", "A1", 5⟩], []⟩

/-- A TR confirmation entry: 3 of 5 from `A1` to `B1`. -/
def lineTR : MoveLineInput := ⟨"A", 5, some 3, "A1", "B1"⟩

/-- State after confirming `lineTR` on `exStateTR5`. -/
def exStateTR1 : EngineState :=
  ⟨⟨"TR", "TR-1", "transfer", "pending", [⟨"A", 5, 3, "A1", "B1"⟩]⟩,
   [⟨"A", "A1", 2⟩, ⟨"A", "B1", 3⟩],
   [⟨"move", "confirmed", [("user_id", "u")],
     [⟨"A", 5, 3, "A1", "B1", [("A1", -3), ("B1", 3)]⟩], "u"⟩]⟩

/-- The SO move as `create_move` inserts it. -/
def exMoveSO : Move := ⟨"SO", "SO-1", "outbound", "pending", []⟩

/-- SO state with 5 units at `MAIN`. -/
def exStateSO : EngineState := ⟨exMoveSO, [⟨"A", "MAIN", 5⟩], []⟩

/-- An SO confirmation entry: 3 from `MAIN`. -/
def lineSO : MoveLineInput := ⟨"A", 3, none, "MAIN", "MAIN"⟩

/-- State after confirming `lineSO` on `exStateSO`. -/
def exStateSO1 : EngineState :=
  ⟨⟨"SO", "SO-1", "outbound", "approved", [⟨"A", 3, 3, "MAIN", "MAIN"⟩]⟩,
   [⟨"A", "MAIN", 2⟩],
   [⟨"move", "confirmed", [("user_id", "u")],
     [⟨"A", 3, 3, "MAIN", "MAIN", [("MAIN", -3)]⟩], "u"⟩]⟩

/-- Fully-approved PO state: all 10 of 10 confirmed on `exState0`. -/
def exStateApproved : EngineState :=
  ⟨⟨"PO", "PO-1", "inbound", "approved", [⟨"A", 10, 10, "MAIN", "DOCK"⟩]⟩,
   [⟨"A", "DOCK", 10⟩],
   [⟨"move", "confirmed", [("user_id", "u")],
     [⟨"A", 10, 10, "MAIN", "DOCK", [("DOCK", 10)]⟩], "u"⟩]⟩

/-! ### Claim theorems -/

/-- C9: once a move's status is `"approved"`, every further
`confirm_move` call on it fails with `AlreadyApproved`; the error result
is a rolled-back transaction, so the move, its lines, the ledger and the
audit log are untouched. -/
theorem C9_approved_terminal (products : List String) (actor : String)
    (st : EngineState) (p : List MoveLineInput)
    (h : st.move.status = "approved") :
    confirm_move products actor st p = .error .alreadyApproved := by
  unfold confirm_move
  rw [if_pos h]

/-- Witness for C9: the fully-approved PO move rejects a further
confirmation. -/
theorem C9_witness :
    confirm_move exProducts "u" exStateApproved [lineA none] =
      .error .alreadyApproved :=
  C9_approved_terminal exProducts "u" exStateApproved [lineA none] rfl

/-- C2 counterexample: a `confirm_move` on an existing pending move
with a non-empty confirmations list and ZERO registered lines succeeds
(the claim says it must fail with `NoRegisteredLines`), while the same
call on a move with one registered line is the one that is rejected. -/
theorem C2_counterexample :
    exState0.move.lines = [] ∧
    confirm_move exProducts "u" exState0 [lineA (some 4)] = .ok exState1 ∧
    exState1.move.lines ≠ [] ∧
    exState1.move.status ≠ "approved" ∧
    confirm_move exProducts "u" exState1 [lineA (some 4)] =
      .error .linesAlreadyRegistered :=
  ⟨rfl, rfl, by decide, by decide, rfl⟩

/-- C2 (amended): the precondition is inverted in the code — a
`confirm_move` on a not-yet-approved move with a non-empty confirmations
list fails with `Conflict` ("lines already registered") exactly when the
move already HAS registered lines; zero registered lines is what the
check accepts. -/
theorem C2_amended (products : List String) (actor : String) (st : EngineState)
    (p : List MoveLineInput) (mty : String) (dir : Int)
    (hst : st.move.status ≠ "approved")
    (hres : resolve_move_type st.move.doc_type = some (mty, dir))
    (hp : p ≠ []) (hlines : st.move.lines ≠ []) :
    confirm_move products actor st p = .error .linesAlreadyRegistered := by
  unfold confirm_move
  rw [if_neg hst, hres]
  simp only []
  rw [if_neg hp, if_pos hlines]

/-- Witness for C2: the amended claim at the one-line state `exState1`. -/
theorem C2_witness :
    confirm_move exProducts "u" exState1 [lineA (some 6)] =
      .error .linesAlreadyRegistered :=
  C2_amended exProducts "u" exState1 [lineA (some 6)] "inbound" 1
    (by decide) rfl (by decide) (by decide)

/-- C3: evaluating `create_move` at the claim's input.  The request
schema (`MoveCreateRequest`) has no `lines` field, so the supplied lines
are silently dropped, and the move is inserted with status `"pending"`
and zero lines — the claim (backed by the repo's own test, which
expects `MoveCreateRequest` to validate `lines`, and by the spec's
`status = draft`) describes the intended behavior the code fails to
implement. -/
theorem C3_create_pending_no_lines :
    create_move ⟨"PO", "PO-1"⟩ "u" [] [] = .ok exStateCreated ∧
    exStateCreated.move.status = "pending" ∧
    exStateCreated.move.lines = [] :=
  ⟨rfl, rfl, rfl⟩

/-- C1 counterexample: splitting a confirmation of 8 into 4 + 4 does
NOT equal one combined call — the first call registers the line, and
the second call fails with `Conflict` ("lines already registered"),
while the combined call succeeds. -/
theorem C1_counterexample :
    confirm_move exProducts "u" exState0 [lineA (some 4)] = .ok exState1 ∧
    confirm_move exProducts "u" exState1 [lineA (some 4)] =
      .error .linesAlreadyRegistered ∧
    (confirm_move exProducts "u" exState0 [lineA (some 8)]).isOk = true :=
  ⟨rfl, rfl, rfl⟩

/-- C1 (amended): `confirm_move` registers lines at confirmation time,
setting each created line's `qty_confirmed` to that call's effective
amount (never accumulating onto an existing value), and any further
`confirm_move` call on the resulting move fails, so a confirmation can
never be split across two calls. -/
theorem C1_no_split (products : List String) (actor actor' : String)
    (st st' : EngineState) (p p' : List MoveLineInput)
    (h : confirm_move products actor st p = .ok st') :
    st'.move.lines.map MoveLine.qty_confirmed = p.map effAmount ∧
    (confirm_move products actor' st' p').isOk = false := by
  obtain ⟨hst, hp, hlines0, mty, dir, acc, hres, hfold, hst'⟩ := confirm_move_ok h
  obtain ⟨hnew, hconf, -, -⟩ := foldlM_processLine_ok hfold
  have hlines : st'.move.lines = p.map mkNewLine := by
    rw [hst']
    simpa using hnew
  have hstat : st'.move.status = if acc.confirmedAll then "approved" else "pending" := by
    rw [hst']
  have hdoc : st'.move.doc_type = st.move.doc_type := by
    rw [hst']
  constructor
  · rw [hlines, List.map_map]
    rfl
  · by_cases hca : acc.confirmedAll
    · have happr : st'.move.status = "approved" := by
        rw [hstat, if_pos hca]
      unfold confirm_move
      rw [if_pos happr]
      rfl
    · have hpend : st'.move.status = "pending" := by
        rw [hstat, if_neg hca]
      have hnap : ¬ st'.move.status = "approved" := by
        rw [hpend]
        decide
      unfold confirm_move
      rw [if_neg hnap, hdoc, hres]
      simp only []
      by_cases hp' : p' = []
      · rw [if_pos hp']
        rfl
      · rw [if_neg hp']
        have hne : st'.move.lines ≠ [] := by
          rw [hlines]
          simpa [List.map_eq_nil_iff] using hp
        rw [if_pos hne]
        rfl

/-- Witness for C1: the amended claim applied to the 4-of-10 first
call; the created line carries exactly 4, and a second call (any
payload, any actor) is rejected. -/
theorem C1_witness :
    exState1.move.lines.map MoveLine.qty_confirmed = [lineA (some 4)].map effAmount ∧
    (confirm_move exProducts "v" exState1 [lineA (some 4)]).isOk = false :=
  C1_no_split exProducts "u" "v" exState0 exState1
    [lineA (some 4)] [lineA (some 4)] rfl

/-- C4 counterexample: immediately after `create_move` — an observable
point with no confirmation applied — the move's status is `"pending"`,
while the claimed status function (approved / pending-once-confirmed /
draft) yields `"draft"`: status is not the claimed function of the
lines. -/
theorem C4_counterexample :
    create_move ⟨"PO", "PO-1"⟩ "u" [] [] = .ok exStateCreated ∧
    specStatus false exStateCreated.move.lines = "draft" ∧
    exStateCreated.move.status = "pending" ∧
    exStateCreated.move.status ≠ specStatus false exStateCreated.move.lines := by
  refine ⟨rfl, ?_, rfl, ?_⟩
  · simp [specStatus, exStateCreated]
  · simp [specStatus, exStateCreated]

/-- C4 (amended): `"draft"` is never used — `create_move` always
inserts status `"pending"` (even with zero lines and zero
confirmations); after every completed `confirm_move` the status is a
pure function of the lines: `"approved"` iff every line (the lines are
non-empty) has `qty_confirmed = qty`, else `"pending"`. -/
theorem C4_status_function :
    (∀ (req : MoveCreateRequest) (actor : String) (ledger : List Stock)
        (audits : List AuditRec) (st' : EngineState),
      create_move req actor ledger audits = .ok st' →
      st'.move.status = "pending" ∧ st'.move.lines = []) ∧
    (∀ (products : List String) (actor : String) (st st' : EngineState)
        (p : List MoveLineInput),
      confirm_move products actor st p = .ok st' →
      st'.move.lines ≠ [] ∧
      (st'.move.status = "approved" ↔
        ∀ l ∈ st'.move.lines, l.qty_confirmed = l.qty) ∧
      (st'.move.status = "approved" ∨ st'.move.status = "pending")) := by
  constructor
  · intro req actor ledger audits st' h
    unfold create_move at h
    split at h
    · split at h
      · exact absurd h (by simp)
      · simp only [Except.ok.injEq] at h
        rw [← h]
        exact ⟨rfl, rfl⟩
    · exact absurd h (by simp)
  · intro products actor st st' p h
    obtain ⟨hst, hp, hlines0, mty, dir, acc, hres, hfold, hst'⟩ := confirm_move_ok h
    obtain ⟨hnew, hconf, -, -⟩ := foldlM_processLine_ok hfold
    have hlines : st'.move.lines = p.map mkNewLine := by
      rw [hst']
      simpa using hnew
    have hstat : st'.move.status = if acc.confirmedAll then "approved" else "pending" := by
      rw [hst']
    have hiff : (∀ l ∈ p.map mkNewLine, l.qty_confirmed = l.qty) ↔
        (∀ lp ∈ p, effAmount lp = lp.qty) := by
      simp [mkNewLine]
    refine ⟨?_, ?_, ?_⟩
    · rw [hlines]
      simpa [List.map_eq_nil_iff] using hp
    · rw [hlines, hstat, hiff]
      by_cases hca : acc.confirmedAll
      · rw [if_pos hca]
        simp only [true_iff]
        exact (hconf.mp hca).2
      · rw [if_neg hca]
        constructor
        · intro hfalse
          exact absurd hfalse (by decide)
        · intro hall
          exact absurd (hconf.mpr ⟨rfl, hall⟩) hca
    · rw [hstat]
      by_cases hca : acc.confirmedAll
      · exact Or.inl (by rw [if_pos hca])
      · exact Or.inr (by rw [if_neg hca])

/-- Witness for C4: the amended claim at the partial 4-of-10
confirmation, whose resulting status is `"pending"`. -/
theorem C4_witness :
    exState1.move.lines ≠ [] ∧
    (exState1.move.status = "approved" ↔
      ∀ l ∈ exState1.move.lines, l.qty_confirmed = l.qty) ∧
    (exState1.move.status = "approved" ∨ exState1.move.status = "pending") :=
  C4_status_function.2 exProducts "u" exState0 exState1 [lineA (some 4)] rfl

/-- C5: non-negative stock is preserved by every completed call —
`create_move` leaves the ledger untouched, and a successful
`confirm_move` whose entries satisfy the request-schema bounds keeps
every `(item_code, location)` quantity at 0 or above, for every
doc_type. -/
theorem C5_stock_nonneg :
    (∀ (req : MoveCreateRequest) (actor : String) (ledger : List Stock)
        (audits : List AuditRec) (st' : EngineState),
      (∀ s ∈ ledger, 0 ≤ s.qty) →
      create_move req actor ledger audits = .ok st' →
      ∀ s ∈ st'.ledger, 0 ≤ s.qty) ∧
    (∀ (products : List String) (actor : String) (st st' : EngineState)
        (p : List MoveLineInput),
      (∀ s ∈ st.ledger, 0 ≤ s.qty) →
      (∀ lp ∈ p, ValidLineInput lp) →
      confirm_move products actor st p = .ok st' →
      ∀ s ∈ st'.ledger, 0 ≤ s.qty) := by
  constructor
  · intro req actor ledger audits st' hled h
    unfold create_move at h
    split at h
    · split at h
      · exact absurd h (by simp)
      · simp only [Except.ok.injEq] at h
        rw [← h]
        exact hled
    · exact absurd h (by simp)
  · intro products actor st st' p hled hval h
    obtain ⟨-, -, -, mty, dir, acc, hres, hfold, hst'⟩ := confirm_move_ok h
    obtain ⟨-, -, -, hnn⟩ := foldlM_processLine_ok hfold
    have : st'.ledger = acc.ledger := by rw [hst']
    rw [this]
    exact hnn (fun lp hlp => validLineInput_effAmount_nonneg (hval lp hlp)) hled

/-- Witness for C5: the SO confirmation of 3 out of 5 units at `MAIN`
leaves a ledger whose entries are all non-negative. -/
theorem C5_witness : ∀ s ∈ exStateSO1.ledger, 0 ≤ s.qty :=
  C5_stock_nonneg.2 exProducts "u" exStateSO exStateSO1 [lineSO]
    (by decide)
    (by
      intro lp hlp
      have hlp' : lp = lineSO := by simpa using hlp
      rw [hlp']
      exact ⟨by decide, fun c hc => by cases hc⟩)
    rfl

/-- Per-entry change of an item's system-wide stock, stated per
doc_type as the claim reads: a TR entry nets zero, a PO or RT entry
adds the effective amount, an SO entry subtracts it. -/
def confirmEffect (doc_type item : String) (lp : MoveLineInput) : Int :=
  if lp.item_code = item then
    (if doc_type = "TR" then 0
     else if doc_type = "SO" then -effAmount lp
     else effAmount lp)
  else 0

/-- C6: every successful `confirm_move` changes each item's total
stock (summed over all locations) by the sum of its entries' effects —
0 per TR entry, +amount per PO/RT entry, −amount per SO entry. -/
theorem C6_total_stock (products : List String) (actor : String)
    (st st' : EngineState) (p : List MoveLineInput) (item : String)
    (h : confirm_move products actor st p = .ok st') :
    totalStock st'.ledger item =
      totalStock st.ledger item +
        (p.map (confirmEffect st.move.doc_type item)).sum := by
  obtain ⟨-, -, -, mty, dir, acc, hres, hfold, hst'⟩ := confirm_move_ok h
  obtain ⟨-, -, htot, -⟩ := foldlM_processLine_ok hfold
  have hled : st'.ledger = acc.ledger := by rw [hst']
  have hfun : stepEffect st.move.doc_type dir item = confirmEffect st.move.doc_type item := by
    funext lp
    rcases resolve_move_type_cases hres with ⟨hd, -, hdir⟩ | ⟨hd, -, hdir⟩ |
      ⟨hd, -, hdir⟩ | ⟨hd, -, hdir⟩ <;>
      rw [hd, hdir] <;> simp [stepEffect, confirmEffect]
  rw [hled, htot item, hfun]

/-- Witness for C6: the 3-unit transfer `A1 → B1` leaves the total
stock of `A` unchanged at 5. -/
theorem C6_witness :
    totalStock exStateTR1.ledger "A" =
      totalStock exStateTR5.ledger "A" +
        ([lineTR].map (confirmEffect exStateTR5.move.doc_type "A")).sum :=
  C6_total_stock exProducts "u" exStateTR5 exStateTR1 [lineTR] "A" rfl

/-- C7: a TR confirmation whose source stock does not cover the
effective amount (row absent or too small) makes the whole call fail
with `InsufficientStock` naming the item and the source location; the
error result is a rolled-back transaction, so source and destination
stock, every line, and the move status are unchanged. -/
theorem C7_transfer_insufficient (products : List String) (actor : String)
    (st : EngineState) (lp : MoveLineInput) (rest : List MoveLineInput)
    (hdt : st.move.doc_type = "TR")
    (hst : st.move.status ≠ "approved")
    (hlines : st.move.lines = [])
    (hprod : lp.item_code ∈ products)
    (hq : effAmount lp ≤ lp.qty)
    (hne : lp.location_from ≠ lp.location_to)
    (hins : ∀ src, findStock st.ledger lp.item_code lp.location_from = some src →
      src.qty < effAmount lp) :
    confirm_move products actor st (lp :: rest) =
      .error (.insufficientStockAt lp.item_code lp.location_from) := by
  have hres : resolve_move_type st.move.doc_type = some ("transfer", -1) := by
    rw [hdt]
    rfl
  have hstep : processLine products st.move.doc_type (-1)
      ⟨st.ledger, [], true, []⟩ lp =
      .error (.insufficientStockAt lp.item_code lp.location_from) := by
    unfold processLine
    rw [if_pos hprod, if_neg (not_lt.mpr hq)]
    have happ : applyStock st.move.doc_type (-1) st.ledger lp (effAmount lp) =
        .error (.insufficientStockAt lp.item_code lp.location_from) := by
      unfold applyStock
      rw [if_pos hdt]
      unfold applyStockTR
      rw [if_neg hne]
      cases hf : findStock st.ledger lp.item_code lp.location_from with
      | none => rfl
      | some src =>
        simp only []
        rw [if_pos (hins src hf)]
    rw [happ]
  unfold confirm_move
  rw [if_neg hst, hres]
  simp only []
  rw [if_neg (by simp : ¬ (lp :: rest) = [])]
  rw [hlines, if_neg (by simp : ¬ ([] : List MoveLine) ≠ [])]
  rw [List.foldlM_cons, hstep]
  rfl

/-- Witness for C7: scenario (e) of the spec — a TR of 5 from `A1`
(holding 3) to `B1` is rejected naming `A` and `A1`. -/
theorem C7_witness :
    confirm_move exProducts "u" exStateTR3 [⟨"A", 5, none, "A1", "B1"⟩] =
      .error (.insufficientStockAt "A" "A1") :=
  C7_transfer_insufficient exProducts "u" exStateTR3 ⟨"A", 5, none, "A1", "B1"⟩ []
    rfl (by decide) rfl (by decide) (by decide) (by decide)
    (by
      intro src hf
      have h2 : (some (⟨"A", "A1", 3⟩ : Stock) : Option Stock) = some src := hf
      rw [← Option.some.inj h2]
      decide)

/-- State after confirming an explicit `qty_confirmed = 0` entry on
`exState0`: the call succeeds, the stock row is created with qty 0. -/
def exStateZero : EngineState :=
  ⟨⟨"PO", "PO-1", "inbound", "pending", [⟨"A", 10, 0, "MAIN", "DOCK"⟩]⟩,
   [⟨"A", "DOCK", 0⟩],
   [⟨"move", "confirmed", [("user_id", "u")],
     [⟨"A", 10, 0, "MAIN", "DOCK", [("DOCK", 0)]⟩], "u"⟩]⟩

/-- C8 counterexample: an entry whose effective amount is 0 (explicit
`qty_confirmed = 0`) is NOT rejected — the call succeeds (the claim
says it must fail with `ValidationError: NonPositiveConfirmation`; no
such check exists in the code). -/
theorem C8_counterexample :
    effAmount (lineA (some 0)) = 0 ∧
    confirm_move exProducts "u" exState0 [lineA (some 0)] = .ok exStateZero :=
  ⟨rfl, rfl⟩

/-- C8 (amended): `confirm_move` applies no positivity check to the
effective amount — the schema only enforces `qty_confirmed ≥ 0` when
present — so a PO entry confirming 0 succeeds, records the line with
`qty_confirmed = 0`, leaves the target stock quantity unchanged, and
leaves the move pending. -/
theorem C8_zero_accepted (products : List String) (actor : String)
    (st : EngineState) (lp : MoveLineInput)
    (hdt : st.move.doc_type = "PO")
    (hst : st.move.status ≠ "approved")
    (hlines : st.move.lines = [])
    (hprod : lp.item_code ∈ products)
    (hc : lp.qty_confirmed = some 0)
    (hq : 0 < lp.qty) :
    ∃ st', confirm_move products actor st [lp] = .ok st' ∧
      st'.move.status = "pending" ∧
      st'.move.lines.map MoveLine.qty_confirmed = [0] ∧
      stockQtyD st'.ledger lp.item_code lp.location_to =
        stockQtyD st.ledger lp.item_code lp.location_to := by
  have heff : effAmount lp = 0 := by simp [effAmount, hc]
  have hres : resolve_move_type st.move.doc_type = some ("inbound", 1) := by
    rw [hdt]
    rfl
  have hTR : st.move.doc_type ≠ "TR" := by rw [hdt]; decide
  have hle : effAmount lp ≤ lp.qty := by omega
  have hrun := confirm_move_singleton_pos products actor st lp "inbound" 1
    hst hres hTR (by decide) hlines hprod hle
  refine ⟨_, hrun, ?_, ?_, ?_⟩
  · show (if effAmount lp < lp.qty then "pending" else "approved") = "pending"
    rw [if_pos (by omega)]
  · show ([mkNewLine lp].map MoveLine.qty_confirmed) = [0]
    simp [mkNewLine, heff]
  · show stockQtyD (setStockQty st.ledger lp.item_code lp.location_to
        (stockQtyD st.ledger lp.item_code lp.location_to + effAmount lp))
        lp.item_code lp.location_to =
      stockQtyD st.ledger lp.item_code lp.location_to
    rw [stockQtyD_setStockQty_self, heff]
    ring

/-- Witness for C8: the amended claim at the concrete zero-amount
entry on the fresh PO move. -/
theorem C8_witness :
    ∃ st', confirm_move exProducts "u" exState0 [lineA (some 0)] = .ok st' ∧
      st'.move.status = "pending" ∧
      st'.move.lines.map MoveLine.qty_confirmed = [0] ∧
      stockQtyD st'.ledger (lineA (some 0)).item_code (lineA (some 0)).location_to =
        stockQtyD exState0.ledger (lineA (some 0)).item_code (lineA (some 0)).location_to :=
  C8_zero_accepted exProducts "u" exState0 (lineA (some 0))
    rfl (by decide) rfl (by decide) rfl (by decide)

/-- TR state with no stock at all (fresh move, empty ledger). -/
def exStateTRempty : EngineState := ⟨exMoveTR, [], []⟩

/-- C10: an omitted `location_from` / `location_to` defaults to
`"MAIN"`; hence a TR entry omitting both always fails the
same-location check, a PO entry omitting `location_to` adds its amount
to the stock at `"MAIN"`, and an SO entry omitting `location_from`
subtracts its amount from the stock at `"MAIN"`. -/
theorem C10_default_main :
    (∀ (item : String) (qty : Int) (c : Option Int),
      (mkMoveLineInput item qty c none none).location_from = "MAIN" ∧
      (mkMoveLineInput item qty c none none).location_to = "MAIN") ∧
    (∀ (products : List String) (actor : String) (st : EngineState)
        (c : Option Int) (item : String) (qty : Int) (rest : List MoveLineInput),
      st.move.doc_type = "TR" → st.move.status ≠ "approved" →
      st.move.lines = [] → item ∈ products →
      effAmount (mkMoveLineInput item qty c none none) ≤ qty →
      confirm_move products actor st (mkMoveLineInput item qty c none none :: rest) =
        .error .sameLocationTransfer) ∧
    (∀ (products : List String) (actor : String) (st : EngineState)
        (c : Option Int) (item : String) (qty : Int),
      st.move.doc_type = "PO" → st.move.status ≠ "approved" →
      st.move.lines = [] → item ∈ products →
      effAmount (mkMoveLineInput item qty c none none) ≤ qty →
      ∃ st', confirm_move products actor st [mkMoveLineInput item qty c none none] =
          .ok st' ∧
        stockQtyD st'.ledger item "MAIN" =
          stockQtyD st.ledger item "MAIN" +
            effAmount (mkMoveLineInput item qty c none none)) ∧
    (∀ (products : List String) (actor : String) (st : EngineState)
        (c : Option Int) (item : String) (qty : Int) (src : Stock),
      st.move.doc_type = "SO" → st.move.status ≠ "approved" →
      st.move.lines = [] → item ∈ products →
      effAmount (mkMoveLineInput item qty c none none) ≤ qty →
      findStock st.ledger item "MAIN" = some src →
      effAmount (mkMoveLineInput item qty c none none) ≤ src.qty →
      ∃ st', confirm_move products actor st [mkMoveLineInput item qty c none none] =
          .ok st' ∧
        stockQtyD st'.ledger item "MAIN" =
          stockQtyD st.ledger item "MAIN" -
            effAmount (mkMoveLineInput item qty c none none)) := by
  refine ⟨fun item qty c => ⟨rfl, rfl⟩, ?_, ?_, ?_⟩
  · intro products actor st c item qty rest hdt hst hlines hprod hle
    have hres : resolve_move_type st.move.doc_type = some ("transfer", -1) := by
      rw [hdt]
      rfl
    have hprod' : (mkMoveLineInput item qty c none none).item_code ∈ products := hprod
    have hle' : effAmount (mkMoveLineInput item qty c none none) ≤
        (mkMoveLineInput item qty c none none).qty := hle
    have hstep : processLine products st.move.doc_type (-1)
        ⟨st.ledger, [], true, []⟩ (mkMoveLineInput item qty c none none) =
        .error .sameLocationTransfer := by
      unfold processLine
      rw [if_pos hprod', if_neg (not_lt.mpr hle')]
      have happ : applyStock st.move.doc_type (-1) st.ledger
          (mkMoveLineInput item qty c none none)
          (effAmount (mkMoveLineInput item qty c none none)) =
          .error .sameLocationTransfer := by
        unfold applyStock
        rw [if_pos hdt]
        unfold applyStockTR
        rw [if_pos (show (mkMoveLineInput item qty c none none).location_from =
          (mkMoveLineInput item qty c none none).location_to from rfl)]
      rw [happ]
    unfold confirm_move
    rw [if_neg hst, hres]
    simp only []
    rw [if_neg (by simp : ¬ (mkMoveLineInput item qty c none none :: rest) = [])]
    rw [hlines, if_neg (by simp : ¬ ([] : List MoveLine) ≠ [])]
    rw [List.foldlM_cons, hstep]
    rfl
  · intro products actor st c item qty hdt hst hlines hprod hle
    have hres : resolve_move_type st.move.doc_type = some ("inbound", 1) := by
      rw [hdt]
      rfl
    have hTR : st.move.doc_type ≠ "TR" := by rw [hdt]; decide
    have hrun := confirm_move_singleton_pos products actor st
      (mkMoveLineInput item qty c none none) "inbound" 1
      hst hres hTR (by decide) hlines hprod hle
    exact ⟨_, hrun, stockQtyD_setStockQty_self st.ledger item "MAIN" _⟩
  · intro products actor st c item qty src hdt hst hlines hprod hle hf hcov
    have hres : resolve_move_type st.move.doc_type = some ("outbound", -1) := by
      rw [hdt]
      rfl
    have hTR : st.move.doc_type ≠ "TR" := by rw [hdt]; decide
    have hrun := confirm_move_singleton_neg products actor st
      (mkMoveLineInput item qty c none none) "outbound" (-1) src
      hst hres hTR (by decide) hlines hprod hle hf hcov
    refine ⟨_, hrun, ?_⟩
    show stockQtyD (setStockQty st.ledger item "MAIN"
        (src.qty - effAmount (mkMoveLineInput item qty c none none))) item "MAIN" =
      stockQtyD st.ledger item "MAIN" - effAmount (mkMoveLineInput item qty c none none)
    rw [stockQtyD_setStockQty_self, stockQtyD_of_findStock hf]

/-- Witness for C10: the defaults at item `A`, a same-location TR
rejection, a PO of 5 into the defaulted `"MAIN"` location, and an SO
of 3 out of the defaulted `"MAIN"` location holding 5. -/
theorem C10_witness :
    ((mkMoveLineInput "A" 5 none none none).location_from = "MAIN" ∧
     (mkMoveLineInput "A" 5 none none none).location_to = "MAIN") ∧
    confirm_move exProducts "u" exStateTRempty
      [mkMoveLineInput "A" 5 none none none] = .error .sameLocationTransfer ∧
    (∃ st', confirm_move exProducts "u" exState0
        [mkMoveLineInput "A" 5 none none none] = .ok st' ∧
      stockQtyD st'.ledger "A" "MAIN" =
        stockQtyD exState0.ledger "A" "MAIN" +
          effAmount (mkMoveLineInput "A" 5 none none none)) ∧
    (∃ st', confirm_move exProducts "u" exStateSO
        [mkMoveLineInput "A" 3 none none none] = .ok st' ∧
      stockQtyD st'.ledger "A" "MAIN" =
        stockQtyD exStateSO.ledger "A" "MAIN" -
          effAmount (mkMoveLineInput "A" 3 none none none)) :=
  ⟨C10_default_main.1 "A" 5 none,
   C10_default_main.2.1 exProducts "u" exStateTRempty none "A" 5 []
     rfl (by decide) rfl (by decide) (by decide),
   C10_default_main.2.2.1 exProducts "u" exState0 none "A" 5
     rfl (by decide) rfl (by decide) (by decide),
   C10_default_main.2.2.2 exProducts "u" exStateSO none "A" 3 ⟨"A", "MAIN", 5⟩
     rfl (by decide) rfl (by decide) (by decide) rfl (by decide)⟩

end Picking
